import Mathlib

/-
Verification of the task-lease scheduler in Orchestrator.py
(repository DistrebutedOrchestratorAWS).

The scheduler's shared state is a task pool (the global `tasks` list), a
worker registry (the global `workers` dict, insertion ordered), and the
endpoints `register_worker`, `get_assignment`, `acknowledge_assignment`,
`update_status`, plus the two background sweeps `timeout_checker` and
`shutdown_notifier`.  All of them run under one lock, so each endpoint call
and each sweep pass is one atomic state transformation; we embed them as
pure functions on a `State` record.

Wall-clock instants (`time.time()`) are modelled as `Nat`; configuration
values (`BATCH_SIZE`, `ACK_TIMEOUT`, `PROCESSING_TIMEOUT`) are fields of a
`Config` record.  Python string `.lower()` is modelled as a character map
(`pyLower`), which agrees with Python on ASCII input.
-/

namespace Orchestrator

/-- Configuration read from the environment at startup:
`BATCH_SIZE`, `ACK_TIMEOUT`, `PROCESSING_TIMEOUT` (Orchestrator.py lines 22-24). -/
structure Config where
  BATCH_SIZE : Nat
  ACK_TIMEOUT : Nat
  PROCESSING_TIMEOUT : Nat
deriving DecidableEq, Repr

/-- The three shapes of `worker['assignment']` dict built by `get_assignment`:
* `shutdownDirective`  — the dict with keys `shutdown`/`message` built when the pool is empty
  (lines 221-224); it has no `file_names` key;
* `taskBatch fs`       — the normal batch dict with `file_names = fs` plus the constant
  bucket metadata (lines 234-240);
* `noTasksRemaining`   — the defensive dict with `file_names = []` and the
  message `No tasks remaining` (lines 242-248). -/
inductive Assignment where
  | shutdownDirective : Assignment
  | taskBatch (file_names : List String) : Assignment
  | noTasksRemaining : Assignment
deriving DecidableEq, Repr

/-- The `details` payloads recorded in history events:
a client-supplied JSON payload, an assignment dict, the literal empty dict
(acknowledge), or the `elapsed` dict written by the timeout sweep. -/
inductive Details where
  | payload (d : String) : Details
  | assignmentD (a : Assignment) : Details
  | emptyD : Details
  | elapsedD (e : Nat) : Details
deriving DecidableEq, Repr

/-- One entry of a worker's `history` list:
`{'status': ..., 'details': ..., 'timestamp': ...}`. -/
structure HistEvent where
  status : String
  details : Details
  timestamp : Nat
deriving DecidableEq, Repr

/-- One value of the `workers` dict (created at lines 189-196). -/
structure WorkerRecord where
  status : String
  assignment : Option Assignment
  assignment_timestamp : Option Nat
  processing_start : Option Nat
  history : List HistEvent
deriving DecidableEq, Repr

/-- The shared scheduler state.  `tasks` is the global task pool and `workers`
the registry (an insertion-ordered association list, like a Python dict with
distinct keys).  `completed` and `discarded` are ghost fields that do not
exist in the source: `completed` accumulates the `file_names` of every
assignment cleared by a `completed` report, and `discarded` those cleared by
a `shutting-down` report; they only record where cleared tasks went, and no
operation ever reads them. -/
structure State where
  tasks : List String
  workers : List (String × WorkerRecord)
  completed : List String
  discarded : List String
deriving DecidableEq, Repr

/-- The two error replies of the protocol endpoints:
`Worker not registered` (HTTP 404) and `No assignment pending` (HTTP 400). -/
inductive ApiError where
  | notRegistered : ApiError
  | noAssignmentPending : ApiError
deriving DecidableEq, Repr

/-- `workers.get(worker_id)` on the association list. -/
def lookupW (ws : List (String × WorkerRecord)) (wid : String) : Option WorkerRecord :=
  match ws with
  | [] => none
  | (k, w) :: rest => if k = wid then some w else lookupW rest wid

/-- In-place mutation of the record stored under `wid` (Python mutates the
dict value object); keys other than the first occurrence of `wid` are
untouched. -/
def updateW (ws : List (String × WorkerRecord)) (wid : String)
    (f : WorkerRecord → WorkerRecord) : List (String × WorkerRecord) :=
  match ws with
  | [] => []
  | (k, w) :: rest => if k = wid then (k, f w) :: rest else (k, w) :: updateW rest wid f

/-- `assignment.get('file_names', [])` for an assignment dict. -/
def filesOfA : Assignment → List String
  | Assignment.taskBatch fs => fs
  | Assignment.shutdownDirective => []
  | Assignment.noTasksRemaining => []

/-- `file_names` of an optional assignment; `none ↦ []` (the sweep reads
`worker.get('assignment', {}).get('file_names', [])` only under guards that
imply the assignment is present). -/
def filesOf : Option Assignment → List String
  | none => []
  | some a => filesOfA a

/-- Python truthiness of a stored timestamp: `None` and `0` are falsy. -/
def timeTruthy : Option Nat → Bool
  | none => false
  | some t => t != 0

/-- Python `str.lower()` (modelled character-wise; agrees on ASCII). -/
def pyLower (s : String) : String := String.mk (s.data.map Char.toLower)

/-- `register_worker` (lines 183-197): insert a fresh record with status
`idle`, no assignment, no timestamps, and a one-element history. -/
def registerW (s : State) (wid : String) (workerData : String) (now : Nat) : State :=
  { s with workers := s.workers ++
      [(wid, { status := "idle", assignment := none, assignment_timestamp := none,
               processing_start := none,
               history := [⟨"registered", Details.payload workerData, now⟩] })] }

/-- `get_assignment` (lines 200-253).  Returns the mutated state and the HTTP
reply: an error for an unknown worker, otherwise the assignment dict. -/
def get_assignment (cfg : Config) (s : State) (wid : String) (now : Nat) :
    State × Except ApiError Assignment :=
  match lookupW s.workers wid with
  | none => (s, Except.error ApiError.notRegistered)
  | some w =>
    match w.assignment with
    | some a => (s, Except.ok a)
    | none =>
      if s.tasks.length = 0 then
        ({ s with workers := updateW s.workers wid (fun w0 =>
            { w0 with assignment := some Assignment.shutdownDirective,
                      status := "shutdown",
                      history := w0.history ++
                        [⟨"shutdown", Details.assignmentD Assignment.shutdownDirective, now⟩] }) },
         Except.ok Assignment.shutdownDirective)
      else
        let pr : Assignment × List String :=
          if s.tasks.isEmpty then (Assignment.noTasksRemaining, s.tasks)
          else (Assignment.taskBatch (s.tasks.take cfg.BATCH_SIZE), s.tasks.drop cfg.BATCH_SIZE)
        ({ s with tasks := pr.2,
                  workers := updateW s.workers wid (fun w0 =>
            { w0 with assignment := some pr.1,
                      assignment_timestamp := some now,
                      status := "waiting_ack",
                      history := w0.history ++
                        [⟨"assignment_assigned", Details.assignmentD pr.1, now⟩] }) },
         Except.ok pr.1)

/-- `acknowledge_assignment` (lines 256-269). -/
def acknowledge (s : State) (wid : String) (now : Nat) : State × Except ApiError Unit :=
  match lookupW s.workers wid with
  | none => (s, Except.error ApiError.notRegistered)
  | some w =>
    match w.assignment with
    | none => (s, Except.error ApiError.noAssignmentPending)
    | some _ =>
      ({ s with workers := updateW s.workers wid (fun w0 =>
          { w0 with status := "processing",
                    processing_start := some now,
                    history := w0.history ++ [⟨"processing", Details.emptyD, now⟩],
                    assignment_timestamp := none }) },
       Except.ok ())

/-- `update_status` (lines 272-326).  The reported status string is lowercased
first (line 281).  `det` is the client's `details` payload.  The ghost fields
`completed`/`discarded` record the destination of cleared tasks. -/
def update_status (s : State) (wid : String) (rawStatus : String) (det : String) (now : Nat) :
    State × Except ApiError Unit :=
  let status_update := pyLower rawStatus
  match lookupW s.workers wid with
  | none => (s, Except.error ApiError.notRegistered)
  | some w =>
    match w.assignment with
    | some current_assignment =>
      if status_update = "completed" then
        ({ s with workers := updateW s.workers wid (fun w0 =>
            { w0 with history := w0.history ++ [⟨"completed", Details.payload det, now⟩],
                      assignment := none, assignment_timestamp := none,
                      processing_start := none, status := "idle" }),
                  completed := s.completed ++ filesOfA current_assignment },
         Except.ok ())
      else if status_update = "failed" then
        ({ s with tasks := s.tasks ++ filesOfA current_assignment,
                  workers := updateW s.workers wid (fun w0 =>
            { w0 with history := w0.history ++ [⟨"failed", Details.payload det, now⟩],
                      assignment := none, assignment_timestamp := none,
                      processing_start := none, status := "failed" }) },
         Except.ok ())
      else if status_update = "processing" then
        ({ s with workers := updateW s.workers wid (fun w0 =>
            { w0 with history := w0.history ++ [⟨"processing", Details.payload det, now⟩],
                      status := "processing" }) },
         Except.ok ())
      else if status_update = "shutting-down" then
        ({ s with workers := updateW s.workers wid (fun w0 =>
            { w0 with history := w0.history ++ [⟨"shutting-down", Details.payload det, now⟩],
                      assignment := none, assignment_timestamp := none,
                      processing_start := none, status := "shutting-down" }),
                  discarded := s.discarded ++ filesOfA current_assignment },
         Except.ok ())
      else
        ({ s with workers := updateW s.workers wid (fun w0 =>
            { w0 with history := w0.history ++ [⟨status_update, Details.payload det, now⟩],
                      status := status_update }) },
         Except.ok ())
    | none =>
      if status_update = "shutting-down" then
        ({ s with workers := updateW s.workers wid (fun w0 =>
            { w0 with history := w0.history ++ [⟨"shutting-down", Details.payload det, now⟩],
                      status := "shutting-down" }) },
         Except.ok ())
      else
        ({ s with workers := updateW s.workers wid (fun w0 =>
            { w0 with history := w0.history ++ [⟨status_update, Details.payload det, now⟩],
                      status := "unavailable" }) },
         Except.ok ())

/-- The `timeout_checker` loop body for one worker (lines 378-403): the two
sequential `if` blocks run on the same record, the second seeing the result
of the first.  Returns the updated record together with the `file_names`
this worker's reclamations appended to the global pool, in order. -/
def sweepWorkerRec (cfg : Config) (now : Nat) (w : WorkerRecord) : WorkerRecord × List String :=
  let p1 : WorkerRecord × List String :=
    if w.status = "waiting_ack" ∧ timeTruthy w.assignment_timestamp = true ∧
        now - (w.assignment_timestamp.getD 0) > cfg.ACK_TIMEOUT then
      ({ w with history := w.history ++ [⟨"ack_timeout", Details.elapsedD (now - (w.assignment_timestamp.getD 0)), now⟩],
                status := "unavailable", assignment := none, assignment_timestamp := none },
       filesOf w.assignment)
    else (w, [])
  let p2 : WorkerRecord × List String :=
    if p1.1.status = "processing" ∧ timeTruthy p1.1.processing_start = true ∧
        now - (p1.1.processing_start.getD 0) > cfg.PROCESSING_TIMEOUT then
      ({ p1.1 with history := p1.1.history ++ [⟨"processing_timeout", Details.elapsedD (now - (p1.1.processing_start.getD 0)), now⟩],
                   status := "unavailable", assignment := none, processing_start := none },
       filesOf p1.1.assignment)
    else (p1.1, [])
  (p2.1, p1.2 ++ p2.2)

/-- The `for worker_id, worker in list(workers.items())` loop of a single
`timeout_checker` pass: the pool accumulates reclaimed batches in iteration
order while each record is rewritten in place. -/
def sweepList (cfg : Config) (now : Nat) (pool : List String)
    (ws : List (String × WorkerRecord)) : List String × List (String × WorkerRecord) :=
  match ws with
  | [] => (pool, [])
  | (k, w) :: rest =>
    let p := sweepWorkerRec cfg now w
    let r := sweepList cfg now (pool ++ p.2) rest
    (r.1, (k, p.1) :: r.2)

/-- One pass of the `timeout_checker` background thread at wall-clock `now`. -/
def sweepPass (cfg : Config) (now : Nat) (s : State) : State :=
  let r := sweepList cfg now s.tasks s.workers
  { s with tasks := r.1, workers := r.2 }

/-- A sequence of `timeout_checker` passes at the given instants. -/
def sweepSeq (cfg : Config) (ns : List Nat) (s : State) : State :=
  ns.foldl (fun st n => sweepPass cfg n st) s

/-- The `shutdown_notifier` firing condition (line 363):
`workers and all(worker.get('status') == 'shutting-down' ...)`. -/
def drainReady (s : State) : Bool :=
  (!s.workers.isEmpty) && s.workers.all (fun kw => kw.2.status == "shutting-down")

/-- The `shutdown_notifier` loop (lines 360-367) observed over a trace of
states, one per 10-second tick: each pass fires exactly when `drainReady`
holds, and a firing pass is the last pass (the thread sends the email, shuts
the instance down and never loops again). -/
def notifierRun : List State → List Bool
  | [] => []
  | s :: rest => if drainReady s then [true] else false :: notifierRun rest

/-- The state at startup, after `tasks = scan_s3_for_tasks()` (line 136)
discovered `init_tasks`: an empty registry and the discovered pool. -/
def initialState (init_tasks : List String) : State :=
  { tasks := init_tasks, workers := [], completed := [], discarded := [] }

/-- One atomic transition of the scheduler: a protocol endpoint call or a
sweep pass.  `register` requires a fresh id (uuid4 collisions are assumed
absent) and every call happens at a positive wall-clock instant
(`time.time()` is positive). -/
inductive Step (cfg : Config) : State → State → Prop where
  | register (s : State) (wid workerData : String) (now : Nat)
      (hfresh : lookupW s.workers wid = none) (hnow : 0 < now) :
      Step cfg s (registerW s wid workerData now)
  | getAssignment (s : State) (wid : String) (now : Nat) (hnow : 0 < now) :
      Step cfg s (get_assignment cfg s wid now).1
  | acknowledgeA (s : State) (wid : String) (now : Nat) (hnow : 0 < now) :
      Step cfg s (acknowledge s wid now).1
  | reportStatus (s : State) (wid rawStatus det : String) (now : Nat) (hnow : 0 < now) :
      Step cfg s (update_status s wid rawStatus det now).1
  | sweep (s : State) (now : Nat) (hnow : 0 < now) :
      Step cfg s (sweepPass cfg now s)

/-- States reachable from startup by any sequence of endpoint calls and
sweep passes. -/
def Reachable (cfg : Config) (init_tasks : List String) (s : State) : Prop :=
  Relation.ReflTransGen (Step cfg) (initialState init_tasks) s

/-- Multiset of all tasks currently inside workers' assignments. -/
def assignedM (ws : List (String × WorkerRecord)) : Multiset String :=
  (ws.map (fun kw => (filesOf kw.2.assignment : Multiset String))).sum

/-- Task conservation with an explicit account of every destination: pool,
outstanding assignments, tasks cleared by a `completed` report, and tasks
cleared (dropped) by a `shutting-down` report. -/
def conserves (init_tasks : List String) (s : State) : Prop :=
  (s.tasks : Multiset String) + assignedM s.workers + (s.completed : Multiset String)
    + (s.discarded : Multiset String) = (init_tasks : Multiset String)

/-- No worker record holds the defensive `No tasks remaining` assignment. -/
def NoDeadAssignment (s : State) : Prop :=
  ∀ kw ∈ s.workers, kw.2.assignment ≠ some Assignment.noTasksRemaining

/-- The documented default configuration: `BATCH_SIZE = 10`,
`ACK_TIMEOUT = 60`, `PROCESSING_TIMEOUT = 600`. -/
def cfgD : Config := ⟨10, 60, 600⟩

/-- Concrete run: one task, one worker. -/
def stateC1a : State := registerW (initialState ["t1"]) "w" "d" 1

/-- The worker takes the only batch. -/
def stateC1b : State := (get_assignment cfgD stateC1a "w" 2).1

/-- The worker reports `shutting-down` while still holding the batch. -/
def stateC1c : State := (update_status stateC1b "w" "shutting-down" "bye" 3).1

/-- Scenario A pool: `[t1..t25]`. -/
def poolA : List String :=
  ["t1", "t2", "t3", "t4", "t5", "t6", "t7", "t8", "t9", "t10", "t11", "t12", "t13",
   "t14", "t15", "t16", "t17", "t18", "t19", "t20", "t21", "t22", "t23", "t24", "t25"]

/-- Scenario A: two registered idle workers over `[t1..t25]`. -/
def stateA0 : State := registerW (registerW (initialState poolA) "w1" "d1" 1) "w2" "d2" 1

/-- Scenario A after the first worker's `get_assignment`. -/
def stateA1 : State := (get_assignment cfgD stateA0 "w1" 2).1

/-- Concrete run used against the free-form status branch: a worker holding
an acknowledged batch. -/
def stateC8 : State :=
  (acknowledge (get_assignment cfgD (registerW (initialState ["a1"]) "w" "d" 1) "w" 2).1 "w" 3).1

/-- Concrete run used for the processing-timeout window: worker `w` holds
batch `[a1]`, not yet acknowledged. -/
def stateC9 : State :=
  (get_assignment cfgD (registerW (initialState ["a1"]) "w" "d" 1) "w" 2).1

/-- A record of a worker that has reported `shutting-down`. -/
def workerSD : WorkerRecord :=
  { status := "shutting-down", assignment := none, assignment_timestamp := none,
    processing_start := none, history := [] }

/-- The record of worker `w` in `stateC9` (computed by the operations above):
`waiting_ack`, holding batch `[a1]` issued at instant 2. -/
def workerC9 : WorkerRecord :=
  { status := "waiting_ack", assignment := some (Assignment.taskBatch ["a1"]),
    assignment_timestamp := some 2, processing_start := none,
    history := [⟨"registered", Details.payload "d", 1⟩,
                ⟨"assignment_assigned", Details.assignmentD (Assignment.taskBatch ["a1"]), 2⟩] }

/-- The record of worker `w` in `stateC8`: `processing`, holding batch `[a1]`
acknowledged at instant 3. -/
def workerC8 : WorkerRecord :=
  { status := "processing", assignment := some (Assignment.taskBatch ["a1"]),
    assignment_timestamp := none, processing_start := some 3,
    history := [⟨"registered", Details.payload "d", 1⟩,
                ⟨"assignment_assigned", Details.assignmentD (Assignment.taskBatch ["a1"]), 2⟩,
                ⟨"processing", Details.emptyD, 3⟩] }

/-- The record of worker `w1` in `stateA0`: freshly registered, idle. -/
def workerA1 : WorkerRecord :=
  { status := "idle", assignment := none, assignment_timestamp := none,
    processing_start := none, history := [⟨"registered", Details.payload "d1", 1⟩] }

/-- The record of worker `w` in `stateC1a`: freshly registered, idle. -/
def workerC1 : WorkerRecord :=
  { status := "idle", assignment := none, assignment_timestamp := none,
    processing_start := none, history := [⟨"registered", Details.payload "d", 1⟩] }

/-- A three-tick trace for the drain coordinator: not ready, ready, ready. -/
def traceC5 : List State :=
  [initialState ["x"],
   { tasks := [], workers := [("w", workerSD)], completed := [], discarded := [] },
   { tasks := [], workers := [("w", workerSD)], completed := [], discarded := [] }]

/- ------------------------------------------------------------------ -/
/- Registry lemmas                                                     -/
/- ------------------------------------------------------------------ -/

theorem updateW_eq_of_lookupW_none {ws : List (String × WorkerRecord)} {wid : String}
    (f : WorkerRecord → WorkerRecord) (h : lookupW ws wid = none) : updateW ws wid f = ws := by
  induction ws with
  | nil => rfl
  | cons kw rest ih =>
    obtain ⟨k, w⟩ := kw
    by_cases hk : k = wid
    · simp [lookupW, hk] at h
    · simp only [updateW, if_neg hk]
      simp only [lookupW, if_neg hk] at h
      rw [ih h]

theorem lookupW_updateW_self {ws : List (String × WorkerRecord)} {wid : String}
    {w : WorkerRecord} (f : WorkerRecord → WorkerRecord) (h : lookupW ws wid = some w) :
    lookupW (updateW ws wid f) wid = some (f w) := by
  induction ws with
  | nil => simp [lookupW] at h
  | cons kw rest ih =>
    obtain ⟨k, w'⟩ := kw
    by_cases hk : k = wid
    · simp only [lookupW, if_pos hk] at h
      cases h
      simp [updateW, lookupW, if_pos hk]
    · simp only [lookupW, if_neg hk] at h
      simp only [updateW, if_neg hk, lookupW]
      exact ih h

theorem lookupW_updateW_ne {ws : List (String × WorkerRecord)} {wid wid' : String}
    (f : WorkerRecord → WorkerRecord) (h : wid' ≠ wid) :
    lookupW (updateW ws wid f) wid' = lookupW ws wid' := by
  induction ws with
  | nil => rfl
  | cons kw rest ih =>
    obtain ⟨k, w⟩ := kw
    by_cases hk : k = wid
    · subst hk
      simp [updateW, lookupW, if_neg (fun hh : k = wid' => h hh.symm)]
    · simp only [updateW, if_neg hk, lookupW]
      by_cases hk' : k = wid'
      · simp [hk']
      · simp [hk', ih]

theorem lookupW_split {ws : List (String × WorkerRecord)} {wid : String} {w : WorkerRecord}
    (h : lookupW ws wid = some w) :
    ∃ ws₁ ws₂, ws = ws₁ ++ (wid, w) :: ws₂ := by
  induction ws with
  | nil => simp [lookupW] at h
  | cons kw rest ih =>
    obtain ⟨k, w'⟩ := kw
    by_cases hk : k = wid
    · simp only [lookupW, if_pos hk] at h
      cases h
      exact ⟨[], rest, by simp [hk]⟩
    · simp only [lookupW, if_neg hk] at h
      obtain ⟨ws₁, ws₂, hsplit⟩ := ih h
      exact ⟨(k, w') :: ws₁, ws₂, by simp [hsplit]⟩

theorem lookupW_map (ws : List (String × WorkerRecord)) (wid : String)
    (g : WorkerRecord → WorkerRecord) :
    lookupW (ws.map (fun kw => (kw.1, g kw.2))) wid = (lookupW ws wid).map g := by
  induction ws with
  | nil => rfl
  | cons kw rest ih =>
    obtain ⟨k, w⟩ := kw
    by_cases hk : k = wid
    · simp [lookupW, hk]
    · simp [lookupW, hk, ih]

theorem lookupW_append_right {ws₁ ws₂ : List (String × WorkerRecord)} {wid : String}
    (h : lookupW ws₁ wid = none) :
    lookupW (ws₁ ++ ws₂) wid = lookupW ws₂ wid := by
  induction ws₁ with
  | nil => rfl
  | cons kw rest ih =>
    obtain ⟨k, w⟩ := kw
    by_cases hk : k = wid
    · simp [lookupW, hk] at h
    · simp only [lookupW, if_neg hk] at h
      simp only [List.cons_append, lookupW, if_neg hk]
      exact ih h

/- ------------------------------------------------------------------ -/
/- Multiset accounting lemmas                                          -/
/- ------------------------------------------------------------------ -/

theorem assignedM_nil : assignedM [] = 0 := rfl

theorem assignedM_cons (k : String) (w : WorkerRecord) (ws : List (String × WorkerRecord)) :
    assignedM ((k, w) :: ws) = (filesOf w.assignment : Multiset String) + assignedM ws := by
  simp [assignedM]

theorem assignedM_append (ws₁ ws₂ : List (String × WorkerRecord)) :
    assignedM (ws₁ ++ ws₂) = assignedM ws₁ + assignedM ws₂ := by
  simp [assignedM]

theorem assignedM_updateW {ws : List (String × WorkerRecord)} {wid : String} {w : WorkerRecord}
    (f : WorkerRecord → WorkerRecord) (h : lookupW ws wid = some w) :
    assignedM (updateW ws wid f) + (filesOf w.assignment : Multiset String)
      = assignedM ws + (filesOf (f w).assignment : Multiset String) := by
  induction ws with
  | nil => simp [lookupW] at h
  | cons kw rest ih =>
    obtain ⟨k, w'⟩ := kw
    by_cases hk : k = wid
    · simp only [lookupW, if_pos hk] at h
      cases h
      simp only [updateW, if_pos hk, assignedM_cons]
      abel
    · simp only [lookupW, if_neg hk] at h
      simp only [updateW, if_neg hk, assignedM_cons]
      have := ih h
      calc (filesOf w'.assignment : Multiset String) + assignedM (updateW rest wid f)
          + (filesOf w.assignment : Multiset String)
        = (filesOf w'.assignment : Multiset String)
          + (assignedM (updateW rest wid f) + (filesOf w.assignment : Multiset String)) := by abel
      _ = (filesOf w'.assignment : Multiset String)
          + (assignedM rest + (filesOf (f w).assignment : Multiset String)) := by rw [this]
      _ = (filesOf w'.assignment : Multiset String) + assignedM rest
          + (filesOf (f w).assignment : Multiset String) := by abel

/- ------------------------------------------------------------------ -/
/- Sweep lemmas                                                        -/
/- ------------------------------------------------------------------ -/

theorem sweepWorkerRec_files (cfg : Config) (now : Nat) (w : WorkerRecord) :
    (filesOf (sweepWorkerRec cfg now w).1.assignment : Multiset String)
      + ((sweepWorkerRec cfg now w).2 : Multiset String)
      = (filesOf w.assignment : Multiset String) := by
  by_cases h1 : w.status = "waiting_ack" ∧ timeTruthy w.assignment_timestamp = true ∧
      now - (w.assignment_timestamp.getD 0) > cfg.ACK_TIMEOUT
  · -- ack branch fires; the processing branch then sees status `unavailable`
    simp only [sweepWorkerRec, if_pos h1]
    rw [if_neg (by simp)]
    simp [filesOf]
  · by_cases h2 : w.status = "processing" ∧ timeTruthy w.processing_start = true ∧
        now - (w.processing_start.getD 0) > cfg.PROCESSING_TIMEOUT
    · simp only [sweepWorkerRec, if_neg h1, if_pos h2]
      simp [filesOf]
    · simp only [sweepWorkerRec, if_neg h1, if_neg h2]
      simp

theorem sweepWorkerRec_assignment (cfg : Config) (now : Nat) (w : WorkerRecord) :
    (sweepWorkerRec cfg now w).1.assignment = none
      ∨ (sweepWorkerRec cfg now w).1.assignment = w.assignment := by
  by_cases h1 : w.status = "waiting_ack" ∧ timeTruthy w.assignment_timestamp = true ∧
      now - (w.assignment_timestamp.getD 0) > cfg.ACK_TIMEOUT
  · simp only [sweepWorkerRec, if_pos h1]
    rw [if_neg (by simp)]
    simp
  · by_cases h2 : w.status = "processing" ∧ timeTruthy w.processing_start = true ∧
        now - (w.processing_start.getD 0) > cfg.PROCESSING_TIMEOUT
    · simp only [sweepWorkerRec, if_neg h1, if_pos h2]
      simp
    · simp only [sweepWorkerRec, if_neg h1, if_neg h2]
      simp

theorem sweepList_snd (cfg : Config) (now : Nat) (pool : List String)
    (ws : List (String × WorkerRecord)) :
    (sweepList cfg now pool ws).2
      = ws.map (fun kw => (kw.1, (sweepWorkerRec cfg now kw.2).1)) := by
  induction ws generalizing pool with
  | nil => rfl
  | cons kw rest ih =>
    obtain ⟨k, w⟩ := kw
    simp [sweepList, ih]

theorem sweepList_fst (cfg : Config) (now : Nat) (pool : List String)
    (ws : List (String × WorkerRecord)) :
    (sweepList cfg now pool ws).1
      = pool ++ (ws.map (fun kw => (sweepWorkerRec cfg now kw.2).2)).flatten := by
  induction ws generalizing pool with
  | nil => simp [sweepList]
  | cons kw rest ih =>
    obtain ⟨k, w⟩ := kw
    simp [sweepList, ih]

theorem sweepPass_workers (cfg : Config) (now : Nat) (s : State) :
    (sweepPass cfg now s).workers
      = s.workers.map (fun kw => (kw.1, (sweepWorkerRec cfg now kw.2).1)) := by
  simp [sweepPass, sweepList_snd]

theorem sweepPass_tasks (cfg : Config) (now : Nat) (s : State) :
    (sweepPass cfg now s).tasks
      = s.tasks ++ (s.workers.map (fun kw => (sweepWorkerRec cfg now kw.2).2)).flatten := by
  simp [sweepPass, sweepList_fst]

theorem sweepPass_completed (cfg : Config) (now : Nat) (s : State) :
    (sweepPass cfg now s).completed = s.completed := rfl

theorem sweepPass_discarded (cfg : Config) (now : Nat) (s : State) :
    (sweepPass cfg now s).discarded = s.discarded := rfl

theorem assignedM_sweep (cfg : Config) (now : Nat) (ws : List (String × WorkerRecord)) :
    assignedM (ws.map (fun kw => (kw.1, (sweepWorkerRec cfg now kw.2).1)))
      + ((ws.map (fun kw => (sweepWorkerRec cfg now kw.2).2)).flatten : Multiset String)
      = assignedM ws := by
  induction ws with
  | nil => simp [assignedM_nil]
  | cons kw rest ih =>
    obtain ⟨k, w⟩ := kw
    have hw := sweepWorkerRec_files cfg now w
    simp only [List.map_cons, List.flatten_cons, assignedM_cons, ← Multiset.coe_add]
    rw [← hw, ← ih]
    abel

theorem assignedM_updateW_keep (ws : List (String × WorkerRecord)) (wid : String)
    (f : WorkerRecord → WorkerRecord) (hf : ∀ w0, (f w0).assignment = w0.assignment) :
    assignedM (updateW ws wid f) = assignedM ws := by
  cases hl : lookupW ws wid with
  | none => rw [updateW_eq_of_lookupW_none f hl]
  | some w =>
    have h2 := assignedM_updateW f hl
    rw [hf] at h2
    exact add_right_cancel h2

theorem assignedM_updateW_clear {ws : List (String × WorkerRecord)} {wid : String}
    {w : WorkerRecord} (f : WorkerRecord → WorkerRecord) (hl : lookupW ws wid = some w)
    (hf : filesOf (f w).assignment = []) :
    assignedM (updateW ws wid f) + (filesOf w.assignment : Multiset String) = assignedM ws := by
  have h2 := assignedM_updateW f hl
  rw [hf] at h2
  simpa using h2

/- ------------------------------------------------------------------ -/
/- Conservation: each transition preserves the task account            -/
/- ------------------------------------------------------------------ -/

theorem conserves_registerW (init_tasks : List String) (s : State) (wid d : String) (now : Nat)
    (h : conserves init_tasks s) : conserves init_tasks (registerW s wid d now) := by
  unfold conserves registerW at *
  simpa [assignedM_append, assignedM_cons, assignedM_nil, filesOf] using h

theorem conserves_get_assignment (cfg : Config) (init_tasks : List String) (s : State)
    (wid : String) (now : Nat) (h : conserves init_tasks s) :
    conserves init_tasks (get_assignment cfg s wid now).1 := by
  unfold get_assignment
  cases hl : lookupW s.workers wid with
  | none => simpa [hl] using h
  | some w =>
    cases ha : w.assignment with
    | some a => simpa [hl, ha] using h
    | none =>
      by_cases ht : s.tasks.length = 0
      · have hclear := assignedM_updateW_clear
          (fun w0 => { w0 with assignment := some Assignment.shutdownDirective,
                               status := "shutdown",
                               history := w0.history ++
                                 [⟨"shutdown", Details.assignmentD Assignment.shutdownDirective, now⟩] })
          hl (by simp [filesOf, filesOfA])
        rw [ha] at hclear
        simp only [filesOf, Multiset.coe_nil, add_zero] at hclear
        unfold conserves at h ⊢
        simpa [hl, ha, ht, hclear] using h
      · have hne : s.tasks.isEmpty = false := by
          cases hts : s.tasks with
          | nil => exact absurd (by simp [hts]) ht
          | cons x xs => simp [hts]
        have hdelta := assignedM_updateW
          (fun w0 => { w0 with assignment := some (Assignment.taskBatch (s.tasks.take cfg.BATCH_SIZE)),
                               assignment_timestamp := some now,
                               status := "waiting_ack",
                               history := w0.history ++
                                 [⟨"assignment_assigned",
                                   Details.assignmentD (Assignment.taskBatch (s.tasks.take cfg.BATCH_SIZE)), now⟩] })
          hl
        rw [ha] at hdelta
        simp only [filesOf, filesOfA, Multiset.coe_nil, add_zero] at hdelta
        unfold conserves at h ⊢
        simp only [hl, ha, ht, hne, if_neg ht, Bool.false_eq_true, if_false]
        have hsplit : ((s.tasks.take cfg.BATCH_SIZE : List String) : Multiset String)
            + ((s.tasks.drop cfg.BATCH_SIZE : List String) : Multiset String)
            = (s.tasks : Multiset String) := by
          rw [Multiset.coe_add, List.take_append_drop]
        calc ((s.tasks.drop cfg.BATCH_SIZE : List String) : Multiset String)
            + assignedM (updateW s.workers wid _) + (s.completed : Multiset String)
            + (s.discarded : Multiset String)
            = ((s.tasks.drop cfg.BATCH_SIZE : List String) : Multiset String)
              + (assignedM s.workers + ((s.tasks.take cfg.BATCH_SIZE : List String) : Multiset String))
              + (s.completed : Multiset String) + (s.discarded : Multiset String) := by rw [hdelta]
          _ = (((s.tasks.take cfg.BATCH_SIZE : List String) : Multiset String)
              + ((s.tasks.drop cfg.BATCH_SIZE : List String) : Multiset String))
              + assignedM s.workers + (s.completed : Multiset String)
              + (s.discarded : Multiset String) := by abel
          _ = (init_tasks : Multiset String) := by rw [hsplit]; exact h

theorem conserves_acknowledge (init_tasks : List String) (s : State) (wid : String) (now : Nat)
    (h : conserves init_tasks s) : conserves init_tasks (acknowledge s wid now).1 := by
  unfold acknowledge
  cases hl : lookupW s.workers wid with
  | none => simpa [hl] using h
  | some w =>
    cases ha : w.assignment with
    | none => simpa [hl, ha] using h
    | some a =>
      have hkeep := assignedM_updateW_keep s.workers wid
        (fun w0 => { w0 with status := "processing",
                             processing_start := some now,
                             history := w0.history ++ [⟨"processing", Details.emptyD, now⟩],
                             assignment_timestamp := none })
        (fun w0 => rfl)
      unfold conserves at h ⊢
      simpa [hl, ha, hkeep] using h

theorem conserves_update_status (init_tasks : List String) (s : State)
    (wid rawStatus det : String) (now : Nat) (h : conserves init_tasks s) :
    conserves init_tasks (update_status s wid rawStatus det now).1 := by
  unfold update_status
  cases hl : lookupW s.workers wid with
  | none => simpa [hl] using h
  | some w =>
    cases ha : w.assignment with
    | none =>
      by_cases h1 : pyLower rawStatus = "shutting-down"
      · have hkeep := assignedM_updateW_keep s.workers wid
          (fun w0 => { w0 with history := w0.history ++ [⟨"shutting-down", Details.payload det, now⟩],
                               status := "shutting-down" }) (fun w0 => rfl)
        unfold conserves at h ⊢
        simpa [hl, ha, h1, hkeep] using h
      · have hkeep := assignedM_updateW_keep s.workers wid
          (fun w0 => { w0 with history := w0.history ++ [⟨pyLower rawStatus, Details.payload det, now⟩],
                               status := "unavailable" }) (fun w0 => rfl)
        unfold conserves at h ⊢
        simpa [hl, ha, h1, hkeep] using h
    | some a =>
      by_cases h1 : pyLower rawStatus = "completed"
      · have hclear := assignedM_updateW_clear
          (fun w0 => { w0 with history := w0.history ++ [⟨"completed", Details.payload det, now⟩],
                               assignment := none, assignment_timestamp := none,
                               processing_start := none, status := "idle" })
          hl (by simp [filesOf])
        rw [ha] at hclear
        unfold conserves at h ⊢
        simp only [hl, ha, h1, if_pos rfl]
        calc (s.tasks : Multiset String) + assignedM (updateW s.workers wid _)
            + ((s.completed ++ filesOfA a : List String) : Multiset String)
            + (s.discarded : Multiset String)
            = (s.tasks : Multiset String)
              + (assignedM (updateW s.workers wid _) + (filesOf (some a) : Multiset String))
              + (s.completed : Multiset String) + (s.discarded : Multiset String) := by
              rw [← Multiset.coe_add]
              simp only [filesOf]
              abel
          _ = (init_tasks : Multiset String) := by rw [hclear]; exact h
      · by_cases h2 : pyLower rawStatus = "failed"
        · have hclear := assignedM_updateW_clear
            (fun w0 => { w0 with history := w0.history ++ [⟨"failed", Details.payload det, now⟩],
                                 assignment := none, assignment_timestamp := none,
                                 processing_start := none, status := "failed" })
            hl (by simp [filesOf])
          rw [ha] at hclear
          unfold conserves at h ⊢
          simp only [hl, ha, h1, h2, if_neg h1, if_pos rfl]
          calc ((s.tasks ++ filesOfA a : List String) : Multiset String)
              + assignedM (updateW s.workers wid _) + (s.completed : Multiset String)
              + (s.discarded : Multiset String)
              = (s.tasks : Multiset String)
                + (assignedM (updateW s.workers wid _) + (filesOf (some a) : Multiset String))
                + (s.completed : Multiset String) + (s.discarded : Multiset String) := by
                rw [← Multiset.coe_add]
                simp only [filesOf]
                abel
            _ = (init_tasks : Multiset String) := by rw [hclear]; exact h
        · by_cases h3 : pyLower rawStatus = "processing"
          · have hkeep := assignedM_updateW_keep s.workers wid
              (fun w0 => { w0 with history := w0.history ++ [⟨"processing", Details.payload det, now⟩],
                                   status := "processing" }) (fun w0 => rfl)
            unfold conserves at h ⊢
            simpa [hl, ha, h1, h2, h3, hkeep] using h
          · by_cases h4 : pyLower rawStatus = "shutting-down"
            · have hclear := assignedM_updateW_clear
                (fun w0 => { w0 with history := w0.history ++ [⟨"shutting-down", Details.payload det, now⟩],
                                     assignment := none, assignment_timestamp := none,
                                     processing_start := none, status := "shutting-down" })
                hl (by simp [filesOf])
              rw [ha] at hclear
              unfold conserves at h ⊢
              simp only [hl, ha, if_neg h1, if_neg h2, if_neg h3, h4, if_pos rfl]
              calc (s.tasks : Multiset String) + assignedM (updateW s.workers wid _)
                  + (s.completed : Multiset String)
                  + ((s.discarded ++ filesOfA a : List String) : Multiset String)
                  = (s.tasks : Multiset String)
                    + (assignedM (updateW s.workers wid _) + (filesOf (some a) : Multiset String))
                    + (s.completed : Multiset String) + (s.discarded : Multiset String) := by
                    rw [← Multiset.coe_add]
                    simp only [filesOf]
                    abel
                _ = (init_tasks : Multiset String) := by rw [hclear]; exact h
            · have hkeep := assignedM_updateW_keep s.workers wid
                (fun w0 => { w0 with history := w0.history ++ [⟨pyLower rawStatus, Details.payload det, now⟩],
                                     status := pyLower rawStatus }) (fun w0 => rfl)
              unfold conserves at h ⊢
              simpa [hl, ha, h1, h2, h3, h4, hkeep] using h

theorem conserves_sweepPass (cfg : Config) (init_tasks : List String) (s : State) (now : Nat)
    (h : conserves init_tasks s) : conserves init_tasks (sweepPass cfg now s) := by
  unfold conserves at h ⊢
  rw [sweepPass_tasks, sweepPass_workers, sweepPass_completed, sweepPass_discarded,
    ← Multiset.coe_add]
  calc ((s.tasks : List String) : Multiset String)
      + ((s.workers.map (fun kw => (sweepWorkerRec cfg now kw.2).2)).flatten : Multiset String)
      + assignedM (s.workers.map (fun kw => (kw.1, (sweepWorkerRec cfg now kw.2).1)))
      + (s.completed : Multiset String) + (s.discarded : Multiset String)
      = (s.tasks : Multiset String)
        + (assignedM (s.workers.map (fun kw => (kw.1, (sweepWorkerRec cfg now kw.2).1)))
          + ((s.workers.map (fun kw => (sweepWorkerRec cfg now kw.2).2)).flatten : Multiset String))
        + (s.completed : Multiset String) + (s.discarded : Multiset String) := by abel
    _ = (init_tasks : Multiset String) := by rw [assignedM_sweep]; exact h

/-- Every reachable state satisfies the corrected conservation account. -/
theorem conserves_of_reachable (cfg : Config) (init_tasks : List String) (s : State)
    (h : Reachable cfg init_tasks s) : conserves init_tasks s := by
  induction h with
  | refl => simp [conserves, initialState, assignedM_nil]
  | tail hr hs ih =>
    cases hs with
    | register wid d now hfresh hnow => exact conserves_registerW init_tasks _ wid d now ih
    | getAssignment wid now hnow => exact conserves_get_assignment cfg init_tasks _ wid now ih
    | acknowledgeA wid now hnow => exact conserves_acknowledge init_tasks _ wid now ih
    | reportStatus wid rawStatus det now hnow =>
      exact conserves_update_status init_tasks _ wid rawStatus det now ih
    | sweep now hnow => exact conserves_sweepPass cfg init_tasks _ now ih

/- ------------------------------------------------------------------ -/
/- The defensive empty-batch branch is dead                            -/
/- ------------------------------------------------------------------ -/

theorem lookupW_mem {ws : List (String × WorkerRecord)} {wid : String} {w : WorkerRecord}
    (h : lookupW ws wid = some w) : (wid, w) ∈ ws := by
  induction ws with
  | nil => simp [lookupW] at h
  | cons kw rest ih =>
    obtain ⟨k, w'⟩ := kw
    by_cases hk : k = wid
    · simp only [lookupW, if_pos hk] at h
      cases h
      simp [hk]
    · simp only [lookupW, if_neg hk] at h
      exact List.mem_cons_of_mem _ (ih h)

theorem mem_updateW {ws : List (String × WorkerRecord)} {wid : String}
    {f : WorkerRecord → WorkerRecord} {kw : String × WorkerRecord}
    (h : kw ∈ updateW ws wid f) : kw ∈ ws ∨ ∃ kw' ∈ ws, kw = (kw'.1, f kw'.2) := by
  induction ws with
  | nil => simp [updateW] at h
  | cons kw0 rest ih =>
    obtain ⟨k, w⟩ := kw0
    by_cases hk : k = wid
    · simp only [updateW, if_pos hk] at h
      rcases List.mem_cons.mp h with h1 | h1
      · exact Or.inr ⟨(k, w), List.mem_cons_self _ _, h1⟩
      · exact Or.inl (List.mem_cons_of_mem _ h1)
    · simp only [updateW, if_neg hk] at h
      rcases List.mem_cons.mp h with h1 | h1
      · exact Or.inl (by simp [h1])
      · rcases ih h1 with h2 | ⟨kw', hmem, heq⟩
        · exact Or.inl (List.mem_cons_of_mem _ h2)
        · exact Or.inr ⟨kw', List.mem_cons_of_mem _ hmem, heq⟩

theorem noDead_updateW {s : State} {wid : String} {f : WorkerRecord → WorkerRecord}
    (h : NoDeadAssignment s)
    (hf : ∀ w0, (f w0).assignment = w0.assignment
        ∨ (f w0).assignment = none
        ∨ (∃ a, (f w0).assignment = some a ∧ a ≠ Assignment.noTasksRemaining)) :
    ∀ kw ∈ updateW s.workers wid f, kw.2.assignment ≠ some Assignment.noTasksRemaining := by
  intro kw hmem
  rcases mem_updateW hmem with h1 | ⟨kw', hmem', heq⟩
  · exact h kw h1
  · subst heq
    rcases hf kw'.2 with h2 | h2 | ⟨a, h2, h3⟩
    · simpa [h2] using h kw' hmem'
    · simp [h2]
    · simp only [h2]
      intro hcontra
      exact h3 (by injection hcontra)

theorem noDead_step (cfg : Config) {s s' : State} (hs : Step cfg s s')
    (h : NoDeadAssignment s) : NoDeadAssignment s' := by
  cases hs with
  | register wid d now hfresh hnow =>
    intro kw hmem
    rcases List.mem_append.mp hmem with h1 | h1
    · exact h kw h1
    · simp only [List.mem_singleton] at h1
      subst h1
      simp
  | getAssignment wid now hnow =>
    unfold get_assignment
    cases hl : lookupW s.workers wid with
    | none => simpa [hl] using h
    | some w =>
      cases ha : w.assignment with
      | some a => simpa [hl, ha] using h
      | none =>
        by_cases ht : s.tasks.length = 0
        · simp only [hl, ha, ht, if_pos rfl]
          exact noDead_updateW h (fun w0 => Or.inr (Or.inr
            ⟨Assignment.shutdownDirective, rfl, by simp⟩))
        · have hne : s.tasks.isEmpty = false := by
            cases hts : s.tasks with
            | nil => exact absurd (by simp [hts]) ht
            | cons x xs => simp [hts]
          simp only [hl, ha, if_neg ht, hne, Bool.false_eq_true, if_false]
          exact noDead_updateW h (fun w0 => Or.inr (Or.inr
            ⟨Assignment.taskBatch (s.tasks.take cfg.BATCH_SIZE), rfl, by simp⟩))
  | acknowledgeA wid now hnow =>
    unfold acknowledge
    cases hl : lookupW s.workers wid with
    | none => simpa [hl] using h
    | some w =>
      cases ha : w.assignment with
      | none => simpa [hl, ha] using h
      | some a =>
        simp only [hl, ha]
        exact noDead_updateW h (fun w0 => Or.inl rfl)
  | reportStatus wid rawStatus det now hnow =>
    unfold update_status
    cases hl : lookupW s.workers wid with
    | none => simpa [hl] using h
    | some w =>
      cases ha : w.assignment with
      | none =>
        by_cases h1 : pyLower rawStatus = "shutting-down" <;>
          simp only [hl, ha, h1, if_pos, if_neg, if_true, if_false] <;>
          exact noDead_updateW h (fun w0 => Or.inl rfl)
      | some a =>
        simp only [hl, ha]
        split
        · exact noDead_updateW h (fun w0 => Or.inr (Or.inl rfl))
        · split
          · exact noDead_updateW h (fun w0 => Or.inr (Or.inl rfl))
          · split
            · exact noDead_updateW h (fun w0 => Or.inl rfl)
            · split
              · exact noDead_updateW h (fun w0 => Or.inr (Or.inl rfl))
              · exact noDead_updateW h (fun w0 => Or.inl rfl)
  | sweep now hnow =>
    intro kw hmem
    rw [sweepPass_workers] at hmem
    rcases List.mem_map.mp hmem with ⟨kw', hmem', heq⟩
    subst heq
    rcases sweepWorkerRec_assignment cfg now kw'.2 with h2 | h2
    · simp [h2]
    · simpa [h2] using h kw' hmem'

theorem noDead_of_reachable (cfg : Config) (init_tasks : List String) (s : State)
    (h : Reachable cfg init_tasks s) : NoDeadAssignment s := by
  induction h with
  | refl => intro kw hmem; simp [initialState] at hmem
  | tail hr hs ih => exact noDead_step cfg hs ih

theorem get_assignment_never_dead (cfg : Config) (s : State) (wid : String) (now : Nat)
    (h : NoDeadAssignment s) :
    (get_assignment cfg s wid now).2 ≠ Except.ok Assignment.noTasksRemaining := by
  unfold get_assignment
  cases hl : lookupW s.workers wid with
  | none => simp [hl]
  | some w =>
    cases ha : w.assignment with
    | some a =>
      have hmem := lookupW_mem hl
      have hne := h (wid, w) hmem
      simp only [hl, ha]
      intro hcontra
      apply hne
      rw [ha]
      congr 1
      injection hcontra
    | none =>
      by_cases ht : s.tasks.length = 0
      · simp [hl, ha, ht]
      · have hne : s.tasks.isEmpty = false := by
          cases hts : s.tasks with
          | nil => exact absurd (by simp [hts]) ht
          | cons x xs => simp [hts]
        simp [hl, ha, ht, hne]

/- ------------------------------------------------------------------ -/
/- Per-worker sweep behaviour                                          -/
/- ------------------------------------------------------------------ -/

theorem sweepWorkerRec_keep_processing (cfg : Config) (now : Nat) (w : WorkerRecord) (t : Nat)
    (hst : w.status = "processing") (hps : w.processing_start = some t)
    (hle : now ≤ t + cfg.PROCESSING_TIMEOUT) :
    sweepWorkerRec cfg now w = (w, []) := by
  have h1 : ¬(w.status = "waiting_ack" ∧ timeTruthy w.assignment_timestamp = true ∧
      now - (w.assignment_timestamp.getD 0) > cfg.ACK_TIMEOUT) := by
    rintro ⟨hc, -, -⟩
    rw [hst] at hc
    exact absurd hc (by decide)
  have h2 : ¬(w.status = "processing" ∧ timeTruthy w.processing_start = true ∧
      now - (w.processing_start.getD 0) > cfg.PROCESSING_TIMEOUT) := by
    rintro ⟨-, -, hgt⟩
    rw [hps] at hgt
    simp only [Option.getD_some] at hgt
    omega
  simp only [sweepWorkerRec, if_neg h1, if_neg h2]
  rfl

theorem sweepWorkerRec_fire_processing (cfg : Config) (now : Nat) (w : WorkerRecord) (t : Nat)
    (hst : w.status = "processing") (hps : w.processing_start = some t) (ht : 0 < t)
    (hgt : now - t > cfg.PROCESSING_TIMEOUT) :
    sweepWorkerRec cfg now w
      = ({ w with history := w.history ++ [⟨"processing_timeout", Details.elapsedD (now - t), now⟩],
                  status := "unavailable", assignment := none, processing_start := none },
         filesOf w.assignment) := by
  have h1 : ¬(w.status = "waiting_ack" ∧ timeTruthy w.assignment_timestamp = true ∧
      now - (w.assignment_timestamp.getD 0) > cfg.ACK_TIMEOUT) := by
    rintro ⟨hc, -, -⟩
    rw [hst] at hc
    exact absurd hc (by decide)
  have h2 : w.status = "processing" ∧ timeTruthy w.processing_start = true ∧
      now - (w.processing_start.getD 0) > cfg.PROCESSING_TIMEOUT := by
    refine ⟨hst, ?_, ?_⟩
    · rw [hps]
      simp [timeTruthy]
      omega
    · rw [hps]
      simpa using hgt
  simp only [sweepWorkerRec, if_neg h1, if_pos h2]
  rw [hps]
  simp

theorem sweepWorkerRec_fire_ack (cfg : Config) (now : Nat) (w : WorkerRecord) (t : Nat)
    (hst : w.status = "waiting_ack") (hts : w.assignment_timestamp = some t) (ht : 0 < t)
    (hgt : now - t > cfg.ACK_TIMEOUT) :
    sweepWorkerRec cfg now w
      = ({ w with history := w.history ++ [⟨"ack_timeout", Details.elapsedD (now - t), now⟩],
                  status := "unavailable", assignment := none, assignment_timestamp := none },
         filesOf w.assignment) := by
  have h1 : w.status = "waiting_ack" ∧ timeTruthy w.assignment_timestamp = true ∧
      now - (w.assignment_timestamp.getD 0) > cfg.ACK_TIMEOUT := by
    refine ⟨hst, ?_, ?_⟩
    · rw [hts]
      simp [timeTruthy]
      omega
    · rw [hts]
      simpa using hgt
  simp only [sweepWorkerRec, if_pos h1]
  rw [if_neg (by simp)]
  rw [hts]
  simp

theorem sweepWorkerRec_boundary_ack (cfg : Config) (now : Nat) (w : WorkerRecord) (t : Nat)
    (hst : w.status = "waiting_ack") (hts : w.assignment_timestamp = some t)
    (heq : now - t = cfg.ACK_TIMEOUT) :
    sweepWorkerRec cfg now w = (w, []) := by
  have h1 : ¬(w.status = "waiting_ack" ∧ timeTruthy w.assignment_timestamp = true ∧
      now - (w.assignment_timestamp.getD 0) > cfg.ACK_TIMEOUT) := by
    rintro ⟨-, -, hgt⟩
    rw [hts] at hgt
    simp only [Option.getD_some] at hgt
    omega
  have h2 : ¬(w.status = "processing" ∧ timeTruthy w.processing_start = true ∧
      now - (w.processing_start.getD 0) > cfg.PROCESSING_TIMEOUT) := by
    rintro ⟨hc, -, -⟩
    rw [hst] at hc
    exact absurd hc (by decide)
  simp only [sweepWorkerRec, if_neg h1, if_neg h2]
  rfl

theorem sweepWorkerRec_boundary_processing (cfg : Config) (now : Nat) (w : WorkerRecord) (t : Nat)
    (hst : w.status = "processing") (hps : w.processing_start = some t)
    (heq : now - t = cfg.PROCESSING_TIMEOUT) :
    sweepWorkerRec cfg now w = (w, []) :=
  sweepWorkerRec_keep_processing cfg now w t hst hps (by omega)

theorem sweepPass_keep (cfg : Config) (now : Nat) (s : State) (wid : String) (w : WorkerRecord)
    (hw : lookupW s.workers wid = some w) (hkeep : sweepWorkerRec cfg now w = (w, [])) :
    lookupW (sweepPass cfg now s).workers wid = some w := by
  have h1 := lookupW_map s.workers wid (fun w0 => (sweepWorkerRec cfg now w0).1)
  rw [sweepPass_workers]
  refine h1.trans ?_
  rw [hw]
  simp [hkeep]

theorem sweepPass_lookup (cfg : Config) (now : Nat) (s : State) (wid : String) (w : WorkerRecord)
    (hw : lookupW s.workers wid = some w) :
    lookupW (sweepPass cfg now s).workers wid = some (sweepWorkerRec cfg now w).1 := by
  have h1 := lookupW_map s.workers wid (fun w0 => (sweepWorkerRec cfg now w0).1)
  rw [sweepPass_workers]
  refine h1.trans ?_
  rw [hw]
  rfl

theorem sweepPass_pool_split (cfg : Config) (now : Nat) (s : State) (wid : String)
    (w : WorkerRecord) (hw : lookupW s.workers wid = some w) :
    ∃ l₁ l₂, (sweepPass cfg now s).tasks
      = s.tasks ++ l₁ ++ (sweepWorkerRec cfg now w).2 ++ l₂ := by
  obtain ⟨ws₁, ws₂, hsplit⟩ := lookupW_split hw
  refine ⟨(ws₁.map (fun kw => (sweepWorkerRec cfg now kw.2).2)).flatten,
          (ws₂.map (fun kw => (sweepWorkerRec cfg now kw.2).2)).flatten, ?_⟩
  rw [sweepPass_tasks, hsplit]
  simp [List.flatten_append, List.append_assoc]

theorem sweepSeq_keep_processing (cfg : Config) (ns : List Nat) (s : State) (wid : String)
    (w : WorkerRecord) (t : Nat) (hw : lookupW s.workers wid = some w)
    (hst : w.status = "processing") (hps : w.processing_start = some t)
    (hns : ∀ x ∈ ns, x ≤ t + cfg.PROCESSING_TIMEOUT) :
    lookupW (sweepSeq cfg ns s).workers wid = some w := by
  induction ns generalizing s with
  | nil => exact hw
  | cons n rest ih =>
    have hn : n ≤ t + cfg.PROCESSING_TIMEOUT := hns n (List.mem_cons_self _ _)
    have hkeep := sweepWorkerRec_keep_processing cfg n w t hst hps hn
    have hstep := sweepPass_keep cfg n s wid w hw hkeep
    exact ih (sweepPass cfg n s) hstep (fun x hx => hns x (List.mem_cons_of_mem _ hx))

/- ------------------------------------------------------------------ -/
/- Drain coordinator lemmas                                            -/
/- ------------------------------------------------------------------ -/

theorem notifierRun_count (trace : List State) : (notifierRun trace).count true ≤ 1 := by
  induction trace with
  | nil => simp [notifierRun]
  | cons s rest ih =>
    by_cases hr : drainReady s
    · simp [notifierRun, hr]
    · simpa [notifierRun, hr] using ih

theorem notifierRun_getD (trace : List State) (i : Nat) (h : i < (notifierRun trace).length) :
    (notifierRun trace).getD i false = drainReady (trace.getD i (initialState [])) := by
  induction trace generalizing i with
  | nil => simp [notifierRun] at h
  | cons s rest ih =>
    by_cases hr : drainReady s
    · simp only [notifierRun, if_pos hr, List.length_singleton] at h
      interval_cases i
      simp [notifierRun, hr]
    · cases i with
      | zero => simp [notifierRun, hr]
      | succ j =>
        simp only [notifierRun, if_neg hr, List.length_cons, Nat.succ_lt_succ_iff] at h
        simpa [notifierRun, hr] using ih j h

theorem notifierRun_fires_last (trace : List State) (i : Nat)
    (h : (notifierRun trace).getD i false = true) :
    (notifierRun trace).length = i + 1 := by
  induction trace generalizing i with
  | nil => simp [notifierRun, List.getD] at h
  | cons s rest ih =>
    by_cases hr : drainReady s
    · simp only [notifierRun, if_pos hr] at h ⊢
      cases i with
      | zero => rfl
      | succ j => simp [List.getD] at h
    · simp only [notifierRun, if_neg hr] at h ⊢
      cases i with
      | zero => simp [List.getD] at h
      | succ j =>
        simp only [List.getD_cons_succ] at h
        simp [ih j h]

/- ------------------------------------------------------------------ -/
/- Claim theorems                                                      -/
/- ------------------------------------------------------------------ -/

/-- C2: for every registered worker currently holding an assignment, a
`reportStatus` call with status `failed` appends exactly the assignment's
tasks to the back of the pool in order (after all currently pending tasks),
clears the assignment and both timestamps, sets the status to `failed`, and
appends a `failed` history event; other workers and the pool head are
untouched. -/
theorem C2_failed_returns_batch_to_tail (s : State) (wid det : String) (now : Nat)
    (w : WorkerRecord) (a : Assignment) (hw : lookupW s.workers wid = some w)
    (ha : w.assignment = some a) :
    (update_status s wid "failed" det now).1.tasks = s.tasks ++ filesOfA a ∧
    lookupW (update_status s wid "failed" det now).1.workers wid
      = some { w with history := w.history ++ [⟨"failed", Details.payload det, now⟩],
                      assignment := none, assignment_timestamp := none,
                      processing_start := none, status := "failed" } ∧
    (∀ wid', wid' ≠ wid →
      lookupW (update_status s wid "failed" det now).1.workers wid' = lookupW s.workers wid') ∧
    (update_status s wid "failed" det now).2 = Except.ok () := by
  have hlow : pyLower "failed" = "failed" := by decide
  unfold update_status
  simp only [hw, ha, hlow]
  simp only [if_true]
  refine ⟨rfl, ?_, ?_, rfl⟩
  · exact lookupW_updateW_self _ hw
  · intro wid' hne
    exact lookupW_updateW_ne _ hne

/-- C2 witness: the worker of `stateC9` holds batch `[a1]`; reporting
`failed` moves `a1` to the pool tail and marks the worker failed. -/
theorem C2_failed_returns_batch_to_tail_witness :
    (update_status stateC9 "w" "failed" "e" 6).1.tasks
        = stateC9.tasks ++ filesOfA (Assignment.taskBatch ["a1"]) ∧
    lookupW (update_status stateC9 "w" "failed" "e" 6).1.workers "w"
      = some { workerC9 with history := workerC9.history ++ [⟨"failed", Details.payload "e", 6⟩],
                             assignment := none, assignment_timestamp := none,
                             processing_start := none, status := "failed" } ∧
    (update_status stateC9 "w" "failed" "e" 6).2 = Except.ok () := by
  have h := C2_failed_returns_batch_to_tail stateC9 "w" "e" 6 workerC9
    (Assignment.taskBatch ["a1"]) (by decide) (by decide)
  exact ⟨h.1, h.2.1, h.2.2.2⟩

/-- C3: a registered worker that already holds an assignment gets exactly
that assignment back from `get_assignment`, the whole state is unchanged,
and a repeated call returns the identical batch again. -/
theorem C3_get_assignment_idempotent (cfg : Config) (s : State) (wid : String)
    (now now' : Nat) (w : WorkerRecord) (a : Assignment)
    (hw : lookupW s.workers wid = some w) (ha : w.assignment = some a) :
    get_assignment cfg s wid now = (s, Except.ok a) ∧
    get_assignment cfg (get_assignment cfg s wid now).1 wid now' = (s, Except.ok a) := by
  have h1 : get_assignment cfg s wid now = (s, Except.ok a) := by
    unfold get_assignment
    simp [hw, ha]
  refine ⟨h1, ?_⟩
  rw [h1]
  unfold get_assignment
  simp [hw, ha]

/-- C3 witness: the worker of `stateC8` holds batch `[a1]`; polling twice
returns the identical batch and leaves the state untouched. -/
theorem C3_get_assignment_idempotent_witness :
    get_assignment cfgD stateC8 "w" 10 = (stateC8, Except.ok (Assignment.taskBatch ["a1"])) ∧
    get_assignment cfgD (get_assignment cfgD stateC8 "w" 10).1 "w" 11
      = (stateC8, Except.ok (Assignment.taskBatch ["a1"])) :=
  C3_get_assignment_idempotent cfgD stateC8 "w" 10 11 workerC8
    (Assignment.taskBatch ["a1"]) (by decide) (by decide)

/-- C6: `acknowledge` returns `Worker not registered` for an unknown id and
`No assignment pending` for a worker without an assignment, leaving the
state unchanged in both cases; for a worker holding an assignment it sets
status `processing`, processing-start to `now`, clears the assignment
timestamp, and appends a `processing` history event, touching nothing
else. -/
theorem C6_acknowledge_errors_and_effect (s : State) (wid : String) (now : Nat) :
    (lookupW s.workers wid = none →
      acknowledge s wid now = (s, Except.error ApiError.notRegistered)) ∧
    (∀ w, lookupW s.workers wid = some w → w.assignment = none →
      acknowledge s wid now = (s, Except.error ApiError.noAssignmentPending)) ∧
    (∀ w a, lookupW s.workers wid = some w → w.assignment = some a →
      lookupW (acknowledge s wid now).1.workers wid
        = some { w with status := "processing", processing_start := some now,
                        history := w.history ++ [⟨"processing", Details.emptyD, now⟩],
                        assignment_timestamp := none } ∧
      (acknowledge s wid now).1.tasks = s.tasks ∧
      (acknowledge s wid now).2 = Except.ok () ∧
      (∀ wid', wid' ≠ wid →
        lookupW (acknowledge s wid now).1.workers wid' = lookupW s.workers wid')) := by
  refine ⟨?_, ?_, ?_⟩
  · intro h
    unfold acknowledge
    simp [h]
  · intro w hw ha
    unfold acknowledge
    simp [hw, ha]
  · intro w a hw ha
    have hred : acknowledge s wid now
        = ({ s with workers := updateW s.workers wid (fun w0 =>
              { w0 with status := "processing",
                        processing_start := some now,
                        history := w0.history ++ [⟨"processing", Details.emptyD, now⟩],
                        assignment_timestamp := none }) },
           Except.ok ()) := by
      unfold acknowledge
      simp only [hw, ha]
    refine ⟨?_, by rw [hred], by rw [hred], ?_⟩
    · rw [hred]
      exact lookupW_updateW_self _ hw
    · intro wid' hne
      rw [hred]
      exact lookupW_updateW_ne _ hne

/-- C6 witness: the three `acknowledge` behaviours at concrete states. -/
theorem C6_acknowledge_errors_and_effect_witness :
    acknowledge (initialState ["t1"]) "x" 1
        = (initialState ["t1"], Except.error ApiError.notRegistered) ∧
    acknowledge stateC1a "w" 1 = (stateC1a, Except.error ApiError.noAssignmentPending) ∧
    lookupW (acknowledge stateC9 "w" 5).1.workers "w"
      = some { workerC9 with status := "processing", processing_start := some 5,
                             history := workerC9.history ++ [⟨"processing", Details.emptyD, 5⟩],
                             assignment_timestamp := none } := by
  refine ⟨(C6_acknowledge_errors_and_effect (initialState ["t1"]) "x" 1).1 (by decide),
          (C6_acknowledge_errors_and_effect stateC1a "w" 1).2.1 workerC1 (by decide) (by decide),
          ((C6_acknowledge_errors_and_effect stateC9 "w" 5).2.2 workerC9
            (Assignment.taskBatch ["a1"]) (by decide) (by decide)).1⟩

/-- C7: for a registered worker without an assignment and a non-empty pool,
`get_assignment` removes and returns exactly the first `BATCH_SIZE` tasks
(fewer if the pool holds fewer) and leaves the rest; instantiated on
Scenario A, pool `[t1..t25]` with `BATCH_SIZE = 10` yields `[t1..t10]`,
leaves 15 tasks, and a second distinct worker then gets `[t11..t20]`. -/
theorem C7_fifo_batched_assignment (cfg : Config) (s : State) (wid : String) (now : Nat)
    (w : WorkerRecord) (hw : lookupW s.workers wid = some w) (hna : w.assignment = none)
    (hne : s.tasks ≠ []) :
    (get_assignment cfg s wid now).2
        = Except.ok (Assignment.taskBatch (s.tasks.take cfg.BATCH_SIZE)) ∧
    (get_assignment cfg s wid now).1.tasks = s.tasks.drop cfg.BATCH_SIZE ∧
    s.tasks.take cfg.BATCH_SIZE ++ (get_assignment cfg s wid now).1.tasks = s.tasks ∧
    (s.tasks.take cfg.BATCH_SIZE).length = min cfg.BATCH_SIZE s.tasks.length ∧
    (get_assignment cfgD stateA0 "w1" 2).2 = Except.ok (Assignment.taskBatch
      ["t1", "t2", "t3", "t4", "t5", "t6", "t7", "t8", "t9", "t10"]) ∧
    stateA1.tasks.length = 15 ∧
    (get_assignment cfgD stateA1 "w2" 3).2 = Except.ok (Assignment.taskBatch
      ["t11", "t12", "t13", "t14", "t15", "t16", "t17", "t18", "t19", "t20"]) := by
  have ht : ¬s.tasks.length = 0 := by
    intro h0
    exact hne (List.length_eq_zero.mp h0)
  have hie : s.tasks.isEmpty = false := by
    cases hts : s.tasks with
    | nil => exact absurd hts hne
    | cons x xs => simp [hts]
  have hred : get_assignment cfg s wid now
      = ({ s with tasks := s.tasks.drop cfg.BATCH_SIZE,
                  workers := updateW s.workers wid (fun w0 =>
            { w0 with assignment := some (Assignment.taskBatch (s.tasks.take cfg.BATCH_SIZE)),
                      assignment_timestamp := some now,
                      status := "waiting_ack",
                      history := w0.history ++
                        [⟨"assignment_assigned",
                          Details.assignmentD (Assignment.taskBatch (s.tasks.take cfg.BATCH_SIZE)), now⟩] }) },
         Except.ok (Assignment.taskBatch (s.tasks.take cfg.BATCH_SIZE))) := by
    unfold get_assignment
    simp only [hw, hna, if_neg ht, hie, Bool.false_eq_true, if_false]
  refine ⟨by rw [hred], by rw [hred], ?_, List.length_take _ _, rfl, by decide, rfl⟩
  rw [hred]
  exact List.take_append_drop _ _

/-- C7 witness: the general part of C7 applied to Scenario A's first call. -/
theorem C7_fifo_batched_assignment_witness :
    (get_assignment cfgD stateA0 "w1" 2).2
        = Except.ok (Assignment.taskBatch (stateA0.tasks.take cfgD.BATCH_SIZE)) ∧
    (get_assignment cfgD stateA0 "w1" 2).1.tasks = stateA0.tasks.drop cfgD.BATCH_SIZE := by
  have h := C7_fifo_batched_assignment cfgD stateA0 "w1" 2 workerA1
    (by decide) (by decide) (by decide)
  exact ⟨h.1, h.2.1⟩

/-- C4: in one sweep pass at instant `now`, a `waiting_ack` worker whose
assignment timestamp `t` satisfies `now - t > ACK_TIMEOUT` has its batch
appended to the pool tail and its record rewritten to `unavailable` with the
assignment and its timestamp cleared and an `ack_timeout` event carrying the
elapsed time (symmetrically for `processing` workers past
`PROCESSING_TIMEOUT`); a worker exactly at the boundary (`now - t` equal to
the timeout) is left unchanged by the pass, because both checks are strict. -/
theorem C4_timeout_reclaimer_pass (cfg : Config) (s : State) (wid : String) (now t : Nat)
    (w : WorkerRecord) (hw : lookupW s.workers wid = some w) :
    (w.status = "waiting_ack" → w.assignment_timestamp = some t → 0 < t →
      now - t > cfg.ACK_TIMEOUT →
      lookupW (sweepPass cfg now s).workers wid
        = some { w with history := w.history ++ [⟨"ack_timeout", Details.elapsedD (now - t), now⟩],
                        status := "unavailable", assignment := none,
                        assignment_timestamp := none } ∧
      ∃ l₁ l₂, (sweepPass cfg now s).tasks = s.tasks ++ l₁ ++ filesOf w.assignment ++ l₂) ∧
    (w.status = "processing" → w.processing_start = some t → 0 < t →
      now - t > cfg.PROCESSING_TIMEOUT →
      lookupW (sweepPass cfg now s).workers wid
        = some { w with history := w.history ++
                          [⟨"processing_timeout", Details.elapsedD (now - t), now⟩],
                        status := "unavailable", assignment := none,
                        processing_start := none } ∧
      ∃ l₁ l₂, (sweepPass cfg now s).tasks = s.tasks ++ l₁ ++ filesOf w.assignment ++ l₂) ∧
    (w.status = "waiting_ack" → w.assignment_timestamp = some t →
      now - t = cfg.ACK_TIMEOUT → lookupW (sweepPass cfg now s).workers wid = some w) ∧
    (w.status = "processing" → w.processing_start = some t →
      now - t = cfg.PROCESSING_TIMEOUT → lookupW (sweepPass cfg now s).workers wid = some w) := by
  refine ⟨?_, ?_, ?_, ?_⟩
  · intro hst hts ht hgt
    have hfire := sweepWorkerRec_fire_ack cfg now w t hst hts ht hgt
    constructor
    · have h1 := sweepPass_lookup cfg now s wid w hw
      rw [hfire] at h1
      exact h1
    · obtain ⟨l₁, l₂, hpool⟩ := sweepPass_pool_split cfg now s wid w hw
      rw [hfire] at hpool
      exact ⟨l₁, l₂, hpool⟩
  · intro hst hps ht hgt
    have hfire := sweepWorkerRec_fire_processing cfg now w t hst hps ht hgt
    constructor
    · have h1 := sweepPass_lookup cfg now s wid w hw
      rw [hfire] at h1
      exact h1
    · obtain ⟨l₁, l₂, hpool⟩ := sweepPass_pool_split cfg now s wid w hw
      rw [hfire] at hpool
      exact ⟨l₁, l₂, hpool⟩
  · intro hst hts heq
    exact sweepPass_keep cfg now s wid w hw (sweepWorkerRec_boundary_ack cfg now w t hst hts heq)
  · intro hst hps heq
    exact sweepPass_keep cfg now s wid w hw
      (sweepWorkerRec_boundary_processing cfg now w t hst hps heq)

/-- C4 witness: the `waiting_ack` worker of `stateC9` (timestamp 2) is
reclaimed by a sweep at 100 (elapsed 98 > 60) and untouched by a sweep at
62 (elapsed exactly 60). -/
theorem C4_timeout_reclaimer_pass_witness :
    lookupW (sweepPass cfgD 100 stateC9).workers "w"
      = some { workerC9 with history := workerC9.history ++
                               [⟨"ack_timeout", Details.elapsedD (100 - 2), 100⟩],
                             status := "unavailable", assignment := none,
                             assignment_timestamp := none } ∧
    lookupW (sweepPass cfgD 62 stateC9).workers "w" = some workerC9 := by
  refine ⟨((C4_timeout_reclaimer_pass cfgD stateC9 "w" 100 2 workerC9 (by decide)).1
            (by decide) (by decide) (by decide) (by decide)).1,
          (C4_timeout_reclaimer_pass cfgD stateC9 "w" 62 2 workerC9 (by decide)).2.2.1
            (by decide) (by decide) (by decide)⟩

/-- C5: over any trace of observed states, the drain coordinator fires in an
executed pass exactly when the registry is non-empty and every worker's
status is `shutting-down` at that pass, it fires at most once over the whole
run, and a firing pass is the final pass (the notifier thread tears the
process down and never loops again). -/
theorem C5_drain_coordinator_one_shot (trace : List State) :
    (notifierRun trace).count true ≤ 1 ∧
    (∀ i, i < (notifierRun trace).length →
      (notifierRun trace).getD i false = drainReady (trace.getD i (initialState []))) ∧
    (∀ i, (notifierRun trace).getD i false = true → (notifierRun trace).length = i + 1) :=
  ⟨notifierRun_count trace,
   fun i h => notifierRun_getD trace i h,
   fun i h => notifierRun_fires_last trace i h⟩

/-- C5 witness: on the concrete trace `traceC5` the coordinator skips the
first pass, fires on the second, and runs no further passes. -/
theorem C5_drain_coordinator_one_shot_witness :
    (notifierRun traceC5).count true ≤ 1 ∧
    (notifierRun traceC5).getD 1 false = drainReady (traceC5.getD 1 (initialState [])) ∧
    (notifierRun traceC5).length = 2 := by
  refine ⟨(C5_drain_coordinator_one_shot traceC5).1,
          (C5_drain_coordinator_one_shot traceC5).2.1 1 (by decide),
          (C5_drain_coordinator_one_shot traceC5).2.2 1 (by decide)⟩

/-- C9: a worker that acknowledges its batch at instant `t` and makes no
further protocol calls keeps its batch through every sweep run at or before
`t + PROCESSING_TIMEOUT`; the first sweep past that deadline (at `m`, within
one sweep period `P` of a sweep that ran at or before the deadline) returns
the batch's tasks to the pool, clears the assignment and sets the worker
`unavailable`; hence reclamation happens strictly after
`t + PROCESSING_TIMEOUT` and no later than `t + PROCESSING_TIMEOUT + P`. -/
theorem C9_processing_timeout_window (cfg : Config) (s0 : State) (wid : String)
    (w : WorkerRecord) (fs : List String) (t P m l : Nat) (ns : List Nat)
    (hw : lookupW s0.workers wid = some w)
    (ha : w.assignment = some (Assignment.taskBatch fs))
    (ht : 0 < t)
    (hns : ∀ x ∈ ns, x ≤ t + cfg.PROCESSING_TIMEOUT)
    (hlast : ns.getLast? = some l)
    (hgap : m ≤ l + P)
    (hm : t + cfg.PROCESSING_TIMEOUT < m) :
    lookupW (sweepSeq cfg ns (acknowledge s0 wid t).1).workers wid
      = some { w with status := "processing", processing_start := some t,
                      history := w.history ++ [⟨"processing", Details.emptyD, t⟩],
                      assignment_timestamp := none } ∧
    (∃ w', lookupW (sweepPass cfg m (sweepSeq cfg ns (acknowledge s0 wid t).1)).workers wid
        = some w' ∧ w'.status = "unavailable" ∧ w'.assignment = none) ∧
    (∃ l₁ l₂, (sweepPass cfg m (sweepSeq cfg ns (acknowledge s0 wid t).1)).tasks
        = (sweepSeq cfg ns (acknowledge s0 wid t).1).tasks ++ l₁ ++ fs ++ l₂) ∧
    t + cfg.PROCESSING_TIMEOUT < m ∧ m ≤ t + cfg.PROCESSING_TIMEOUT + P := by
  have hack : lookupW (acknowledge s0 wid t).1.workers wid
      = some { w with status := "processing", processing_start := some t,
                      history := w.history ++ [⟨"processing", Details.emptyD, t⟩],
                      assignment_timestamp := none } := by
    have hred : acknowledge s0 wid t
        = ({ s0 with workers := updateW s0.workers wid (fun w0 =>
              { w0 with status := "processing",
                        processing_start := some t,
                        history := w0.history ++ [⟨"processing", Details.emptyD, t⟩],
                        assignment_timestamp := none }) },
           Except.ok ()) := by
      unfold acknowledge
      simp only [hw, ha]
    rw [hred]
    exact lookupW_updateW_self _ hw
  have hmid := sweepSeq_keep_processing cfg ns (acknowledge s0 wid t).1 wid _ t hack rfl rfl hns
  have hfire := sweepWorkerRec_fire_processing cfg m
    { w with status := "processing", processing_start := some t,
             history := w.history ++ [⟨"processing", Details.emptyD, t⟩],
             assignment_timestamp := none } t rfl rfl ht (by omega)
  have hlookup := sweepPass_lookup cfg m (sweepSeq cfg ns (acknowledge s0 wid t).1) wid _ hmid
  rw [hfire] at hlookup
  obtain ⟨l₁, l₂, hpool⟩ :=
    sweepPass_pool_split cfg m (sweepSeq cfg ns (acknowledge s0 wid t).1) wid _ hmid
  rw [hfire] at hpool
  have hfs : filesOf ({ w with status := "processing", processing_start := some t,
                               history := w.history ++ [⟨"processing", Details.emptyD, t⟩],
                               assignment_timestamp := none } : WorkerRecord).assignment = fs := by
    show filesOf w.assignment = fs
    rw [ha]
    rfl
  have hbound : m ≤ t + cfg.PROCESSING_TIMEOUT + P := by
    have hl := hns l (List.mem_of_mem_getLast? hlast)
    omega
  refine ⟨hmid, ⟨_, hlookup, rfl, rfl⟩, ⟨l₁, l₂, ?_⟩, hm, hbound⟩
  rw [← hfs]
  exact hpool

/-- C9 witness: the worker of `stateC9` acknowledges at 5; sweeps at 7 and
605 leave it untouched and the sweep at 608 (605 < 608 ≤ 610) reclaims it. -/
theorem C9_processing_timeout_window_witness :
    lookupW (sweepSeq cfgD [7, 605] (acknowledge stateC9 "w" 5).1).workers "w"
      = some { workerC9 with status := "processing", processing_start := some 5,
                             history := workerC9.history ++ [⟨"processing", Details.emptyD, 5⟩],
                             assignment_timestamp := none } ∧
    5 + cfgD.PROCESSING_TIMEOUT < 608 ∧ 608 ≤ 5 + cfgD.PROCESSING_TIMEOUT + 5 := by
  have h := C9_processing_timeout_window cfgD stateC9 "w" workerC9 ["a1"] 5 5 608 605 [7, 605]
    (by decide) (by decide) (by decide) (by decide) (by decide) (by decide) (by decide)
  exact ⟨h.1, h.2.2.2⟩

theorem reachable_stateC1c : Reachable cfgD ["t1"] stateC1c :=
  Relation.ReflTransGen.tail
    (Relation.ReflTransGen.tail
      (Relation.ReflTransGen.single
        (Step.register (initialState ["t1"]) "w" "d" 1 (by decide) (by decide)))
      (Step.getAssignment stateC1a "w" 2 (by decide)))
    (Step.reportStatus stateC1b "w" "shutting-down" "bye" 3 (by decide))

/-- C1 counterexample: after register, get_assignment and a `shutting-down`
report from the worker still holding batch `[t1]` — a reachable state — the
pool, all assignments and the completed set are all empty, so their union is
not the discovered task set `[t1]`: the `shutting-down` branch of
`update_status` clears the assignment without returning its tasks. -/
theorem C1_task_conservation_counterexample :
    Reachable cfgD ["t1"] stateC1c ∧
    ¬((stateC1c.tasks : Multiset String) + assignedM stateC1c.workers
        + (stateC1c.completed : Multiset String) = ((["t1"] : List String) : Multiset String)) :=
  ⟨reachable_stateC1c, by decide⟩

/-- C1 (amended): for every reachable state, pool ∪ assignments ∪ completed
∪ {tasks discarded by `shutting-down` reports from workers holding an
assignment} equals the discovered task set: every path that clears an
assignment either marks it completed, returns its tasks to the pool first,
or is the `shutting-down` report, which drops them. -/
theorem C1_task_conservation_with_discard_sink (cfg : Config) (init_tasks : List String)
    (s : State) (h : Reachable cfg init_tasks s) : conserves init_tasks s :=
  conserves_of_reachable cfg init_tasks s h

/-- C1 witness: the amended conservation account at the concrete reachable
state of the counterexample run. -/
theorem C1_task_conservation_with_discard_sink_witness : conserves ["t1"] stateC1c :=
  C1_task_conservation_with_discard_sink cfgD ["t1"] stateC1c reachable_stateC1c

/-- C8 counterexample: in the reachable state `stateC8` the worker holds an
assignment; reporting the free-form status `Paused` stores `paused` — the
lowercased string, not the verbatim one — as the worker's status. -/
theorem C8_verbatim_status_counterexample :
    Reachable cfgD ["a1"] stateC8 ∧
    Option.map WorkerRecord.status
      (lookupW (update_status stateC8 "w" "Paused" "d" 4).1.workers "w") = some "paused" ∧
    "paused" ≠ "Paused" := by
  refine ⟨?_, by decide, by decide⟩
  exact Relation.ReflTransGen.tail
    (Relation.ReflTransGen.tail
      (Relation.ReflTransGen.single
        (Step.register (initialState ["a1"]) "w" "d" 1 (by decide) (by decide)))
      (Step.getAssignment (registerW (initialState ["a1"]) "w" "d" 1) "w" 2 (by decide)))
    (Step.acknowledgeA (get_assignment cfgD (registerW (initialState ["a1"]) "w" "d" 1) "w" 2).1
      "w" 3 (by decide))

/-- C8 (amended): `reportStatus` first lowercases the status string; for a
registered worker holding an assignment, an unrecognized lowercased string
is stored as-is (without validation) as the new status and as the appended
history event's status; for a worker without an assignment the history event
records the lowercased string but the status becomes `unavailable`.  The
pool is untouched in both cases. -/
theorem C8_lowercased_freeform_status (s : State) (wid raw det : String) (now : Nat)
    (w : WorkerRecord) (hw : lookupW s.workers wid = some w) :
    (∀ a, w.assignment = some a →
      pyLower raw ≠ "completed" → pyLower raw ≠ "failed" → pyLower raw ≠ "processing" →
      pyLower raw ≠ "shutting-down" →
      lookupW (update_status s wid raw det now).1.workers wid
        = some { w with history := w.history ++ [⟨pyLower raw, Details.payload det, now⟩],
                        status := pyLower raw } ∧
      (update_status s wid raw det now).1.tasks = s.tasks) ∧
    (w.assignment = none → pyLower raw ≠ "shutting-down" →
      lookupW (update_status s wid raw det now).1.workers wid
        = some { w with history := w.history ++ [⟨pyLower raw, Details.payload det, now⟩],
                        status := "unavailable" } ∧
      (update_status s wid raw det now).1.tasks = s.tasks) := by
  constructor
  · intro a ha h1 h2 h3 h4
    have hred : update_status s wid raw det now
        = ({ s with workers := updateW s.workers wid (fun w0 =>
              { w0 with history := w0.history ++ [⟨pyLower raw, Details.payload det, now⟩],
                        status := pyLower raw }) },
           Except.ok ()) := by
      unfold update_status
      simp only [hw, ha, if_neg h1, if_neg h2, if_neg h3, if_neg h4]
    refine ⟨?_, by rw [hred]⟩
    rw [hred]
    exact lookupW_updateW_self _ hw
  · intro ha h4
    have hred : update_status s wid raw det now
        = ({ s with workers := updateW s.workers wid (fun w0 =>
              { w0 with history := w0.history ++ [⟨pyLower raw, Details.payload det, now⟩],
                        status := "unavailable" }) },
           Except.ok ()) := by
      unfold update_status
      simp only [hw, ha, if_neg h4]
    refine ⟨?_, by rw [hred]⟩
    rw [hred]
    exact lookupW_updateW_self _ hw

/-- C8 witness: the amended statement at the counterexample's inputs. -/
theorem C8_lowercased_freeform_status_witness :
    lookupW (update_status stateC8 "w" "Paused" "d" 4).1.workers "w"
      = some { workerC8 with history := workerC8.history ++
                               [⟨pyLower "Paused", Details.payload "d", 4⟩],
                             status := pyLower "Paused" } ∧
    (update_status stateC8 "w" "Paused" "d" 4).1.tasks = stateC8.tasks :=
  (C8_lowercased_freeform_status stateC8 "w" "Paused" "d" 4 workerC8 (by decide)).1
    (Assignment.taskBatch ["a1"]) (by decide) (by decide) (by decide) (by decide) (by decide)

/-- C10: in every reachable state no worker holds the defensive
`No tasks remaining` assignment, and no `get_assignment` call ever returns
it: once the emptiness check inside the critical section has seen a
non-empty pool, the pool is still non-empty at the batch-taking step, so the
defensive branch is dead code. -/
theorem C10_defensive_branch_unreachable (cfg : Config) (init_tasks : List String) (s : State)
    (h : Reachable cfg init_tasks s) :
    NoDeadAssignment s ∧
    ∀ wid now, (get_assignment cfg s wid now).2 ≠ Except.ok Assignment.noTasksRemaining :=
  ⟨noDead_of_reachable cfg init_tasks s h,
   fun wid now => get_assignment_never_dead cfg s wid now (noDead_of_reachable cfg init_tasks s h)⟩

/-- C10 witness: at the reachable state `stateC1a` (one idle worker, pool
`[t1]`) the call takes the batch path and does not produce the defensive
assignment. -/
theorem C10_defensive_branch_unreachable_witness :
    (get_assignment cfgD stateC1a "w" 2).2 ≠ Except.ok Assignment.noTasksRemaining :=
  (C10_defensive_branch_unreachable cfgD ["t1"] stateC1a
    (Relation.ReflTransGen.single
      (Step.register (initialState ["t1"]) "w" "d" 1 (by decide) (by decide)))).2 "w" 2

end Orchestrator
